import Mathlib

/-!
Shallow embedding of `fmri_utils/func_preproc/volume_realignment.py`.

`volume_4D_realign` (lines 34-127 of the source) realigns the volumes of a
4D image: it optionally smooths the image, selects a reference volume, and
for each volume estimates rigid-body parameters (on the smoothed data) and
resamples the original volume, finally re-saving the image and returning
the parameter trajectory.  `plot_realignment_parameters` (lines 129-153)
converts the parameter trajectory to mm/degrees and plots it.

External collaborators (nibabel loading and smoothing, the optimizer
`optimize_map_vol` and resampler `apply_coord_mapping` imported from
sibling modules, numpy's `rad2deg`, matplotlib) are modelled as function
parameters of the embedding.  Python runtime errors that the script can
actually reach (unbound local variables, bad indexing, broadcast
mismatches) are modelled with an explicit error type, because the
observable behaviour of the script depends on them.
-/

namespace VolumeRealign

/-- A 3D volume: its grid shape and its (flattened) voxel data. -/
structure Vol where
  shape : List Nat
  voxels : List ℚ
  deriving DecidableEq, Repr

/-- A voxel-to-world affine, kept as a matrix of rationals. -/
abbrev Affine := List (List ℚ)

/-- A loaded 4D image (the result of `nib.load` plus `get_data`): the
common 3D shape of every volume (`data.shape[:-1]`), the per-volume voxel
data indexed by the last axis, and the affine. -/
structure Img where
  shape3 : List Nat
  volsData : List (List ℚ)
  affine : Affine
  deriving DecidableEq, Repr

/-- `data[..., i]`: the i-th volume of a 4D image (`none` = IndexError). -/
def Img.vol (img : Img) (i : Nat) : Option Vol :=
  (img.volsData[i]?).map (fun d => ⟨img.shape3, d⟩)

/-- A rigid-body parameter vector (6 values in the script's contract). -/
abbrev Params := List ℚ

/-- Python runtime errors reachable in this script, plus the explicit
configuration error that the design document asks implementers to add
(the script itself never raises it, which is part of what is checked). -/
inductive PyError where
  | nameError (v : String)
  | indexError
  | valueError (msg : String)
  | configError (msg : String)
  | optimizeError
  | resampleError
  deriving DecidableEq, Repr

/-! ### `plot_realignment_parameters` (lines 129-153) -/

/-- The in-place unit-conversion block of `plot_realignment_parameters`
(lines 132-135): columns 0:3 are multiplied by 3 (voxel size to mm) and
columns 3:6 are passed through `np.rad2deg`, modelled by the parameter
`r2d` since the factor 180/pi lives in the external numpy library.
Because line 133 (`rp_adj = rp`) aliases the input array, after the block
the caller's array holds exactly this value.  The right-hand side of line
134 is evaluated before the assignment writes columns 0:3, and line 135
reads columns 3:6, which line 134 did not touch, so the block computes the
row-wise conversion below. -/
def rpConvert (r2d : ℚ → ℚ) (rp : List Params) : List Params :=
  rp.map (fun row =>
    (row.take 3).map (fun x => x * 3) ++ ((row.drop 3).take 3).map r2d ++ row.drop 6)

/-- Result of a successful `plot_realignment_parameters` call: the value
of the caller's array after the call (the function writes into it through
the alias `rp_adj`) and the array whose columns were plotted. -/
structure PlotResult where
  rpFinal : List Params
  plotted : List Params
  deriving DecidableEq, Repr

/-- `plot_realignment_parameters(rp, mm, degrees)` (lines 129-153).
When `mm == True`, line 133 binds `rp_adj` as an alias of the caller's
array and lines 134-135 convert it in place; the plot then reads `rp_adj`.
When `mm` is false, `rp_adj` is never bound and the first plotting call
(line 141) raises a NameError.  Rendering and file output are side effects
that do not touch the data and are not modelled; `degrees` is accepted but
never read by the source. -/
def plot_realignment_parameters (r2d : ℚ → ℚ) (rp : List Params)
    (mm : Bool) (degrees : Bool) : Except PyError PlotResult :=
  if mm = true then
    let rp2 := rpConvert r2d rp
    .ok ⟨rp2, rp2⟩
  else
    .error (.nameError ("rp_adj"))

/-- Projection used to state facts about the caller's array after a
`plot_realignment_parameters` call. -/
def rpFinalOf (r : Except PyError PlotResult) : Option (List Params) :=
  match r with
  | .ok pr => some pr.rpFinal
  | .error _ => none

/-! ### `volume_4D_realign` (lines 34-127) -/

/-- The parameter optimizer `optimize_map_vol` (imported from the sibling
module `optimize_map_coordinates`, outside this file): reference volume,
moving volume, affine and initial guess to a best-fit parameter vector;
`none` models a raised failure. -/
abbrev Optimizer := Vol → Vol → Affine → Params → Option Params

/-- The resampler `apply_coord_mapping` (same sibling module): parameter
vector, reference volume, moving volume and affine to the resampled
volume; `none` models a raised failure. -/
abbrev Resampler := Params → Vol → Vol → Affine → Option Vol

/-- `nibabel.processing.smooth_image` (external library): image and FWHM
to the smoothed image. -/
abbrev SmoothFn := Img → ℚ → Img

/-- `np.zeros(6)` (line 106). -/
def zeros6 : Params := List.replicate 6 0

/-- Elementwise `* (-1)` (line 104). -/
def negP (p : Params) : Params := p.map (fun x => x * (-1))

/-- The warm-start guess of iteration `i` (lines 103-106): row `i-1` of
the accumulating `realign_params` array multiplied by -1 when `i > 0`,
else the zero vector.  Rows not yet written hold the zeros the array was
allocated with (line 91); in any run that reaches iteration `i`, row `i-1`
has already been written, so the default is never observable. -/
def guessFor (ps : List Params) (i : Nat) : Params :=
  if 0 < i then negP ((ps[i - 1]?).getD zeros6) else zeros6

/-- One invocation of `optimize_map_vol`, with its arguments (line 109). -/
structure OptCall where
  ref : Vol
  moving : Vol
  affine : Affine
  guess : Params
  deriving DecidableEq, Repr

/-- One invocation of `apply_coord_mapping`, with its arguments
(line 113). -/
structure ResampleCall where
  params : Params
  ref : Vol
  moving : Vol
  affine : Affine
  deriving DecidableEq, Repr

/-- Loop state: the rows written to `realign_params` so far, the slots of
`realigned_data` written so far, and the two collaborator call traces. -/
structure LoopAcc where
  ps : List Params
  rdata : List Vol
  optCalls : List OptCall
  resCalls : List ResampleCall
  deriving DecidableEq, Repr

/-- One iteration of the realignment loop (lines 103-120) for volume `i`.
`refv` and `smoothed` are `some` exactly when the Python locals `ref_vol`
and `img_smooth`/`data_smooth` are bound; reading an unbound one raises a
NameError, in the left-to-right order the arguments of line 109 are
evaluated.  Line 117 (`realign_params[i,:] = best_params`) requires a
6-vector and line 120 (`realigned_data[...,i] = resampled_vol`) requires
the common 3D volume shape; a mismatch raises a ValueError, with the row
of line 117 already written.  On an error the accumulator keeps the calls
made before the error was raised. -/
def realignStep (opt : Optimizer) (res : Resampler) (refv : Option Vol)
    (smoothed : Option Img) (img : Img) (i : Nat) (acc : LoopAcc) :
    Except (PyError × LoopAcc) LoopAcc :=
  match refv with
  | none => .error (.nameError ("ref_vol"), acc)
  | some rv =>
    match smoothed with
    | none => .error (.nameError ("data_smooth"), acc)
    | some ism =>
      match ism.vol i with
      | none => .error (.indexError, acc)
      | some mv =>
        let acc1 : LoopAcc :=
          { acc with optCalls :=
              acc.optCalls ++ [⟨rv, mv, ism.affine, guessFor acc.ps i⟩] }
        match opt rv mv ism.affine (guessFor acc.ps i) with
        | none => .error (.optimizeError, acc1)
        | some best =>
          match img.vol i with
          | none => .error (.indexError, acc1)
          | some ov =>
            let acc2 : LoopAcc :=
              { acc1 with resCalls := acc1.resCalls ++ [⟨best, rv, ov, img.affine⟩] }
            match res best rv ov img.affine with
            | none => .error (.resampleError, acc2)
            | some rvol =>
              if best.length = 6 then
                let acc3 : LoopAcc := { acc2 with ps := acc2.ps ++ [best] }
                if rvol.shape = img.shape3 then
                  .ok { acc3 with rdata := acc3.rdata ++ [rvol] }
                else .error (.valueError ("broadcast"), acc3)
              else .error (.valueError ("broadcast"), acc2)

/-- `for i in range(n_vols)` (lines 93-122): run `k` remaining iterations
starting at index `i`.  Returns the final accumulator and the first raised
error, if any (a raised exception aborts the loop). -/
def realignLoop (opt : Optimizer) (res : Resampler) (refv : Option Vol)
    (smoothed : Option Img) (img : Img) :
    Nat → Nat → LoopAcc → LoopAcc × Option PyError
  | 0, _, acc => (acc, none)
  | k + 1, i, acc =>
    match realignStep opt res refv smoothed img i acc with
    | .error (e, acc') => (acc', some e)
    | .ok acc' => realignLoop opt res refv smoothed img k (i + 1) acc'

/-- Reference-volume selection (lines 82-87).  The source has no `else`
branch: for `reference` outside {0, 1} the local `ref_vol` is simply never
bound, modelled by `.ok none`.  `int(n_vols/2)` truncates the true
division, which for a nonnegative count is floor, i.e. `Nat` division.
Indexing an empty time axis raises an IndexError. -/
def selectRef (img : Img) (reference : Int) : Except PyError (Option Vol) :=
  if reference = 0 then
    match img.vol 0 with
    | none => .error .indexError
    | some v => .ok (some v)
  else if reference = 1 then
    match img.vol (img.volsData.length / 2) with
    | none => .error .indexError
    | some v => .ok (some v)
  else .ok none

/-- Lines 66-70: `img_smooth` and `data_smooth` are bound only when
`smooth_fwhm > 0`. -/
def smoothedOf (sf : SmoothFn) (img : Img) (smooth_fwhm : ℚ) : Option Img :=
  if 0 < smooth_fwhm then some (sf img smooth_fwhm) else none

/-- The values a successful run produces: the returned image (line 124,
built from the ORIGINAL `data` and `img.affine`), the parameter
trajectory, the intermediate `realigned_data` volumes, and the image
passed to `nib.save` together with the file name it is saved under
(line 125). -/
structure RealignOk where
  realigned_img : Img
  realign_params : List Params
  realigned_data : List Vol
  savedImg : Img
  savedName : String
  deriving DecidableEq, Repr

/-- Run outcome together with the collaborator call traces.  The traces
are kept also when the run raises, so that "how many optimizer calls
happened" is well-defined for failing runs. -/
structure RunResult where
  result : Except PyError RealignOk
  optCalls : List OptCall
  resampleCalls : List ResampleCall
  deriving Repr

/-- `volume_4D_realign(img_path, reference, smooth_fwhm, prefix,
drop_vols)` (lines 34-127).  `nib.load` is modelled by passing the loaded
image `img` directly, and `img_name` stands for the basename that
`os.path.split` extracts from `img_path` (line 62); the directory part and
the physical file write are outside the embedding, but the image handed to
`nib.save` and the name it is saved under (line 125) are recorded.  `pfx`
is the `prefix` argument.  `drop_vols` is accepted but never applied to
the data: the dropping statement (line 75) is commented out in the
source. -/
def volume_4D_realign (opt : Optimizer) (res : Resampler) (sf : SmoothFn)
    (img_name : String) (img : Img) (reference : Int) (smooth_fwhm : ℚ)
    (pfx : String) (drop_vols : Nat) : RunResult :=
  let smoothed := smoothedOf sf img smooth_fwhm
  let n_vols := img.volsData.length
  match selectRef img reference with
  | .error e => ⟨.error e, [], []⟩
  | .ok refv =>
    match realignLoop opt res refv smoothed img n_vols 0 ⟨[], [], [], []⟩ with
    | (acc, some e) => ⟨.error e, acc.optCalls, acc.resCalls⟩
    | (acc, none) =>
      let realigned_img : Img := ⟨img.shape3, img.volsData, img.affine⟩
      ⟨.ok ⟨realigned_img, acc.ps, acc.rdata, realigned_img,
            pfx ++ "_map_coords_" ++ img_name⟩,
       acc.optCalls, acc.resCalls⟩

/-- Whether a run ended in the explicit configuration error that the
design document prescribes for an invalid reference mode. -/
def raisedConfigError (r : RunResult) : Bool :=
  match r.result with
  | .error (.configError _) => true
  | _ => false

/-- The per-volume facts a completed iteration `j` leaves behind: the
optimizer was called on the smoothed volume `j` with the warm-start guess,
its result became row `j` of the trajectory and the parameter argument of
the resampler call on the original volume `j`, and the resampler's result
became slot `j` of `realigned_data`, with the common 3D shape. -/
def TraceFact (opt : Optimizer) (res : Resampler) (rv : Vol) (ism : Img)
    (img : Img) (acc : LoopAcc) (j : Nat) : Prop :=
  ∃ mv best ov rvol,
    ism.vol j = some mv ∧
    img.vol j = some ov ∧
    acc.optCalls[j]? = some ⟨rv, mv, ism.affine, guessFor acc.ps j⟩ ∧
    opt rv mv ism.affine (guessFor acc.ps j) = some best ∧
    acc.ps[j]? = some best ∧
    best.length = 6 ∧
    acc.resCalls[j]? = some ⟨best, rv, ov, img.affine⟩ ∧
    res best rv ov img.affine = some rvol ∧
    acc.rdata[j]? = some rvol ∧
    rvol.shape = img.shape3

/-- Loop invariant: after `i` completed iterations all four accumulators
have length `i` and every completed iteration left its `TraceFact`. -/
def LoopInv (opt : Optimizer) (res : Resampler) (rv : Vol) (ism : Img)
    (img : Img) (i : Nat) (acc : LoopAcc) : Prop :=
  acc.ps.length = i ∧ acc.rdata.length = i ∧ acc.optCalls.length = i ∧
  acc.resCalls.length = i ∧ ∀ j, j < i → TraceFact opt res rv ism img acc j

/-! ### Concrete fixtures used by the witnesses and counterexamples -/

/-- An optimizer that succeeds on every volume, always returning the same
6-parameter vector. -/
def wOptC : Optimizer := fun _ _ _ _ => some [1, 0, 0, 0, 0, 0]

/-- A resampler that succeeds on every volume, returning the moving volume
unchanged (in particular shape-preserving). -/
def wRes : Resampler := fun _ _ mv _ => some mv

/-- A smoothing collaborator that returns the image unchanged. -/
def wSmooth : SmoothFn := fun i _ => i

/-- A 1-volume image. -/
def wImg1 : Img := ⟨[1, 1, 1], [[5]], [[1]]⟩

/-- A 2-volume image. -/
def wImg2 : Img := ⟨[1, 1, 1], [[5], [7]], [[1]]⟩

/-- A 5-volume image (odd count, for the MIDDLE reference mode). -/
def wImg5 : Img := ⟨[1, 1, 1], [[0], [1], [2], [3], [4]], [[1]]⟩

/-- The output of the run on `wImg1` (reference FIRST, width 1). -/
def wOutC1 : RealignOk :=
  ⟨⟨[1, 1, 1], [[5]], [[1]]⟩,
   [[1, 0, 0, 0, 0, 0]],
   [⟨[1, 1, 1], [5]⟩],
   ⟨[1, 1, 1], [[5]], [[1]]⟩, "r_map_coords_f.nii"⟩

/-- The output of the run on `wImg2` (reference FIRST, width 1). -/
def wOutC2 : RealignOk :=
  ⟨⟨[1, 1, 1], [[5], [7]], [[1]]⟩,
   [[1, 0, 0, 0, 0, 0], [1, 0, 0, 0, 0, 0]],
   [⟨[1, 1, 1], [5]⟩, ⟨[1, 1, 1], [7]⟩],
   ⟨[1, 1, 1], [[5], [7]], [[1]]⟩, "r_map_coords_f.nii"⟩

/-- The output of the run on `wImg5` (reference MIDDLE, width 1). -/
def wOutC5 : RealignOk :=
  ⟨⟨[1, 1, 1], [[0], [1], [2], [3], [4]], [[1]]⟩,
   [[1, 0, 0, 0, 0, 0], [1, 0, 0, 0, 0, 0], [1, 0, 0, 0, 0, 0],
    [1, 0, 0, 0, 0, 0], [1, 0, 0, 0, 0, 0]],
   [⟨[1, 1, 1], [0]⟩, ⟨[1, 1, 1], [1]⟩, ⟨[1, 1, 1], [2]⟩,
    ⟨[1, 1, 1], [3]⟩, ⟨[1, 1, 1], [4]⟩],
   ⟨[1, 1, 1], [[0], [1], [2], [3], [4]], [[1]]⟩, "r_map_coords_f.nii"⟩

/-! ### Helper lemmas about the loop -/

theorem guessFor_append (ps l : List Params) (j : Nat) (h : j ≤ ps.length) :
    guessFor (ps ++ l) j = guessFor ps j := by
  unfold guessFor
  rcases Nat.eq_zero_or_pos j with h0 | h0
  · simp [h0]
  · rw [if_pos h0, if_pos h0, List.getElem?_append_left (by omega)]

theorem realignStep_ok_elim {opt : Optimizer} {res : Resampler}
    {refv : Option Vol} {smoothed : Option Img} {img : Img} {i : Nat}
    {acc acc' : LoopAcc}
    (h : realignStep opt res refv smoothed img i acc = .ok acc') :
    ∃ rv ism mv best ov rvol,
      refv = some rv ∧ smoothed = some ism ∧
      ism.vol i = some mv ∧
      opt rv mv ism.affine (guessFor acc.ps i) = some best ∧
      img.vol i = some ov ∧
      res best rv ov img.affine = some rvol ∧
      best.length = 6 ∧ rvol.shape = img.shape3 ∧
      acc' = ⟨acc.ps ++ [best], acc.rdata ++ [rvol],
              acc.optCalls ++ [⟨rv, mv, ism.affine, guessFor acc.ps i⟩],
              acc.resCalls ++ [⟨best, rv, ov, img.affine⟩]⟩ := by
  rcases refv with _ | rv
  · simp [realignStep] at h
  rcases smoothed with _ | ism
  · simp [realignStep] at h
  rcases hmv : ism.vol i with _ | mv
  · simp [realignStep, hmv] at h
  rcases hopt : opt rv mv ism.affine (guessFor acc.ps i) with _ | best
  · simp [realignStep, hmv, hopt] at h
  rcases hov : img.vol i with _ | ov
  · simp [realignStep, hmv, hopt, hov] at h
  rcases hres : res best rv ov img.affine with _ | rvol
  · simp [realignStep, hmv, hopt, hov, hres] at h
  by_cases hb : best.length = 6
  · by_cases hs : rvol.shape = img.shape3
    · simp [realignStep, hmv, hopt, hov, hres, hb, hs] at h
      refine ⟨rv, ism, mv, best, ov, rvol, rfl, rfl, ?_, ?_, ?_, ?_, hb, hs, ?_⟩ <;>
        first
          | rfl
          | exact hmv
          | exact hopt
          | exact hov
          | exact hres
          | exact h.symm
    · simp [realignStep, hmv, hopt, hov, hres, hb, hs] at h
  · simp [realignStep, hmv, hopt, hov, hres, hb] at h

theorem realignLoop_inv (opt : Optimizer) (res : Resampler)
    (refv : Option Vol) (smoothed : Option Img) (img : Img)
    (P : Nat → LoopAcc → Prop)
    (hstep : ∀ i acc acc', P i acc →
      realignStep opt res refv smoothed img i acc = .ok acc' → P (i + 1) acc') :
    ∀ k i acc acc', P i acc →
      realignLoop opt res refv smoothed img k i acc = (acc', none) →
      P (i + k) acc' := by
  intro k
  induction k with
  | zero =>
    intro i acc acc' hP hloop
    simp only [realignLoop, Prod.mk.injEq] at hloop
    rw [← hloop.1]
    exact hP
  | succ k ih =>
    intro i acc acc' hP hloop
    cases hs : realignStep opt res refv smoothed img i acc with
    | error pe =>
      rw [realignLoop, hs] at hloop
      simp at hloop
    | ok acc1 =>
      rw [realignLoop, hs] at hloop
      have hP1 := hstep i acc acc1 hP hs
      have h2 := ih (i + 1) acc1 acc' hP1 hloop
      have he : i + 1 + k = i + (k + 1) := by omega
      rwa [he] at h2

theorem realignLoop_total (opt : Optimizer) (res : Resampler)
    (refv : Option Vol) (smoothed : Option Img) (img : Img) (n : Nat)
    (P : Nat → LoopAcc → Prop)
    (hstep : ∀ i acc, i < n → P i acc →
      ∃ acc', realignStep opt res refv smoothed img i acc = .ok acc' ∧ P (i + 1) acc') :
    ∀ k i acc, i + k ≤ n → P i acc →
      ∃ acc', realignLoop opt res refv smoothed img k i acc = (acc', none) ∧
        P (i + k) acc' := by
  intro k
  induction k with
  | zero =>
    intro i acc _ hP
    exact ⟨acc, by simp [realignLoop], hP⟩
  | succ k ih =>
    intro i acc hk hP
    obtain ⟨acc1, hs, hP1⟩ := hstep i acc (by omega) hP
    obtain ⟨acc', hloop, hP'⟩ := ih (i + 1) acc1 (by omega) hP1
    refine ⟨acc', ?_, ?_⟩
    · rw [realignLoop, hs]
      exact hloop
    · have he : i + 1 + k = i + (k + 1) := by omega
      rwa [he] at hP'

theorem TraceFact_mono {opt : Optimizer} {res : Resampler} {rv : Vol}
    {ism : Img} {img : Img} {acc : LoopAcc} {j : Nat}
    (b : Params) (v : Vol) (oc : OptCall) (rc : ResampleCall)
    (h1 : j < acc.ps.length) (h2 : j < acc.rdata.length)
    (h3 : j < acc.optCalls.length) (h4 : j < acc.resCalls.length)
    (h : TraceFact opt res rv ism img acc j) :
    TraceFact opt res rv ism img
      ⟨acc.ps ++ [b], acc.rdata ++ [v], acc.optCalls ++ [oc], acc.resCalls ++ [rc]⟩ j := by
  obtain ⟨mv, best, ov, rvol, hmv, hov, hoc, hopt, hps, hlen, hrc, hres, hrd, hsh⟩ := h
  have hg : guessFor (acc.ps ++ [b]) j = guessFor acc.ps j :=
    guessFor_append _ _ _ (le_of_lt h1)
  refine ⟨mv, best, ov, rvol, hmv, hov, ?_, ?_, ?_, hlen, ?_, hres, ?_, hsh⟩
  · show (acc.optCalls ++ [oc])[j]? = _
    rw [List.getElem?_append_left h3, hg]
    exact hoc
  · rw [hg]
    exact hopt
  · show (acc.ps ++ [b])[j]? = _
    rw [List.getElem?_append_left h1]
    exact hps
  · show (acc.resCalls ++ [rc])[j]? = _
    rw [List.getElem?_append_left h4]
    exact hrc
  · show (acc.rdata ++ [v])[j]? = _
    rw [List.getElem?_append_left h2]
    exact hrd

theorem LoopInv_step {opt : Optimizer} {res : Resampler} {rv : Vol}
    {ism : Img} {img : Img} {i : Nat} {acc acc' : LoopAcc}
    (hinv : LoopInv opt res rv ism img i acc)
    (hs : realignStep opt res (some rv) (some ism) img i acc = .ok acc') :
    LoopInv opt res rv ism img (i + 1) acc' := by
  obtain ⟨hl1, hl2, hl3, hl4, hfacts⟩ := hinv
  obtain ⟨rv', ism', mv, best, ov, rvol, hrv, hism, hmv, hopt, hov, hres, hb, hsh, hacc⟩ :=
    realignStep_ok_elim hs
  injection hrv with hrv
  injection hism with hism
  subst hrv hism hacc
  have hg : guessFor (acc.ps ++ [best]) i = guessFor acc.ps i :=
    guessFor_append _ _ _ (by omega)
  refine ⟨by simp [hl1], by simp [hl2], by simp [hl3], by simp [hl4], ?_⟩
  intro j hj
  rcases Nat.lt_succ_iff_lt_or_eq.mp hj with hj' | rfl
  · exact TraceFact_mono _ _ _ _ (by omega) (by omega) (by omega) (by omega) (hfacts j hj')
  · refine ⟨mv, best, ov, rvol, hmv, hov, ?_, ?_, ?_, hb, ?_, hres, ?_, hsh⟩
    · show (acc.optCalls ++ [_])[j]? = _
      rw [hg, ← hl3, List.getElem?_concat_length]
    · rw [hg]
      exact hopt
    · show (acc.ps ++ [best])[j]? = _
      rw [← hl1, List.getElem?_concat_length]
    · show (acc.resCalls ++ [_])[j]? = _
      rw [← hl4, List.getElem?_concat_length]
    · show (acc.rdata ++ [rvol])[j]? = _
      rw [← hl2, List.getElem?_concat_length]

theorem volume_4D_realign_ok_elim {opt : Optimizer} {res : Resampler}
    {sf : SmoothFn} {nm : String} {img : Img} {reference : Int} {fwhm : ℚ}
    {pfx : String} {d : Nat} {out : RealignOk}
    (hok : (volume_4D_realign opt res sf nm img reference fwhm pfx d).result = .ok out) :
    ∃ refv acc,
      selectRef img reference = .ok refv ∧
      realignLoop opt res refv (smoothedOf sf img fwhm) img
        img.volsData.length 0 ⟨[], [], [], []⟩ = (acc, none) ∧
      out = ⟨⟨img.shape3, img.volsData, img.affine⟩, acc.ps, acc.rdata,
             ⟨img.shape3, img.volsData, img.affine⟩, pfx ++ "_map_coords_" ++ nm⟩ ∧
      (volume_4D_realign opt res sf nm img reference fwhm pfx d).optCalls = acc.optCalls ∧
      (volume_4D_realign opt res sf nm img reference fwhm pfx d).resampleCalls = acc.resCalls := by
  cases hsel : selectRef img reference with
  | error e =>
    simp only [volume_4D_realign, hsel] at hok
    cases hok
  | ok refv =>
    rcases hloop : realignLoop opt res refv (smoothedOf sf img fwhm) img
        img.volsData.length 0 ⟨[], [], [], []⟩ with ⟨acc, err⟩
    cases err with
    | some e =>
      simp only [volume_4D_realign, hsel, hloop] at hok
      cases hok
    | none =>
      simp only [volume_4D_realign, hsel, hloop] at hok
      injection hok with hok
      refine ⟨refv, acc, rfl, hloop, hok.symm, ?_, ?_⟩ <;>
        simp only [volume_4D_realign, hsel, hloop]

theorem volume_4D_realign_ok_facts {opt : Optimizer} {res : Resampler}
    {sf : SmoothFn} {nm : String} {img : Img} {reference : Int} {fwhm : ℚ}
    {pfx : String} {d : Nat} {out : RealignOk}
    (hok : (volume_4D_realign opt res sf nm img reference fwhm pfx d).result = .ok out) :
    out.realigned_img = ⟨img.shape3, img.volsData, img.affine⟩ ∧
    out.savedImg = ⟨img.shape3, img.volsData, img.affine⟩ ∧
    out.savedName = pfx ++ "_map_coords_" ++ nm ∧
    out.realign_params.length = img.volsData.length ∧
    out.realigned_data.length = img.volsData.length ∧
    (volume_4D_realign opt res sf nm img reference fwhm pfx d).optCalls.length
      = img.volsData.length ∧
    (volume_4D_realign opt res sf nm img reference fwhm pfx d).resampleCalls.length
      = img.volsData.length ∧
    (1 ≤ img.volsData.length →
      ∃ rv ism, selectRef img reference = .ok (some rv) ∧
        smoothedOf sf img fwhm = some ism ∧
        ∀ j, j < img.volsData.length →
          TraceFact opt res rv ism img
            ⟨out.realign_params, out.realigned_data,
             (volume_4D_realign opt res sf nm img reference fwhm pfx d).optCalls,
             (volume_4D_realign opt res sf nm img reference fwhm pfx d).resampleCalls⟩ j) := by
  obtain ⟨refv, acc, hsel, hloop, hout, hoc, hrc⟩ := volume_4D_realign_ok_elim hok
  subst hout
  rcases hn : img.volsData.length with _ | n
  · rw [hn] at hloop
    simp only [realignLoop, Prod.mk.injEq] at hloop
    obtain ⟨rfl, -⟩ := hloop
    refine ⟨rfl, rfl, rfl, rfl, rfl, ?_, ?_, ?_⟩
    · simp [hoc]
    · simp [hrc]
    · intro h
      exact absurd h (by omega)
  · rw [hn] at hloop
    rcases hstep : realignStep opt res refv (smoothedOf sf img fwhm) img 0
        ⟨[], [], [], []⟩ with ⟨e, accE⟩ | acc1
    · rw [realignLoop, hstep] at hloop
      simp at hloop
    · obtain ⟨rv, ism, mv0, best0, ov0, rvol0, hrv, hism, -, -, -, -, -, -, -⟩ :=
        realignStep_ok_elim hstep
      subst hrv
      rw [hism] at hloop
      have hinv := realignLoop_inv opt res (some rv) (some ism) img
        (LoopInv opt res rv ism img)
        (fun i a a' hP hs => LoopInv_step hP hs)
        (n + 1) 0 ⟨[], [], [], []⟩ acc
        ⟨rfl, rfl, rfl, rfl, fun j hj => absurd hj (Nat.not_lt_zero j)⟩ hloop
      obtain ⟨hl1, hl2, hl3, hl4, hfacts⟩ := hinv
      refine ⟨rfl, rfl, rfl, ?_, ?_, ?_, ?_, ?_⟩
      · simpa using hl1
      · simpa using hl2
      · rw [hoc]
        simpa using hl3
      · rw [hrc]
        simpa using hl4
      · intro _
        refine ⟨rv, ism, hsel, hism, ?_⟩
        intro j hj
        rw [hoc, hrc]
        exact hfacts j (by omega)

theorem Img.vol_eq_some {img : Img} {i : Nat} (h : i < img.volsData.length) :
    img.vol i = some ⟨img.shape3, img.volsData.get ⟨i, h⟩⟩ := by
  unfold Img.vol
  rw [List.getElem?_eq_getElem h]
  rfl

theorem realignStep_ok_intro {opt : Optimizer} {res : Resampler} {rv : Vol}
    {ism img : Img} {i : Nat} {acc : LoopAcc} {mv : Vol} {best : Params}
    {ov rvol : Vol}
    (hmv : ism.vol i = some mv)
    (hbest : opt rv mv ism.affine (guessFor acc.ps i) = some best)
    (hov : img.vol i = some ov)
    (hrvol : res best rv ov img.affine = some rvol)
    (hb : best.length = 6)
    (hsh : rvol.shape = img.shape3) :
    realignStep opt res (some rv) (some ism) img i acc
      = .ok ⟨acc.ps ++ [best], acc.rdata ++ [rvol],
             acc.optCalls ++ [⟨rv, mv, ism.affine, guessFor acc.ps i⟩],
             acc.resCalls ++ [⟨best, rv, ov, img.affine⟩]⟩ := by
  simp [realignStep, hmv, hbest, hov, hrvol, hb, hsh]

theorem selectRef_one {img : Img} {refv : Option Vol}
    (h : selectRef img 1 = .ok refv) :
    refv = img.vol (img.volsData.length / 2) := by
  unfold selectRef at h
  rw [if_neg (by decide), if_pos rfl] at h
  rcases hmid : img.vol (img.volsData.length / 2) with _ | v <;> rw [hmid] at h
  · cases h
  · injection h with h
    exact h.symm

/-! ### Claims -/

/-- C8: `drop_vols` is a no-op.  Two runs of `volume_4D_realign` that are
identical except for the value of `drop_vols` produce the same parameter
trajectory, the same realigned output and the same error/trace behaviour:
the statement that would drop leading volumes (line 75) is commented out
in the source, and `drop_vols` is used nowhere else. -/
theorem claim_C8_drop_vols_noop (opt : Optimizer) (res : Resampler)
    (sf : SmoothFn) (nm : String) (img : Img) (reference : Int) (fwhm : ℚ)
    (pfx : String) (d1 d2 : Nat) :
    volume_4D_realign opt res sf nm img reference fwhm pfx d1
      = volume_4D_realign opt res sf nm img reference fwhm pfx d2 := rfl

/-- C10: calling `plot_realignment_parameters` with `mm = False` fails
with an unbound-variable NameError for every input trajectory: `rp_adj`
is only bound inside the `mm == True` branch (line 133) but is read
unconditionally when plotting (line 141), so the `mm = False` path is
never usable. -/
theorem claim_C10_mm_false_unbound (r2d : ℚ → ℚ) (rp : List Params)
    (degs : Bool) :
    plot_realignment_parameters r2d rp false degs
      = .error (.nameError ("rp_adj")) := rfl

/-- C9 fails on the code: the unit conversion of
`plot_realignment_parameters` does NOT return a new array; `rp_adj = rp`
aliases the caller's trajectory and the conversion writes into it, so one
call turns translations (1, 2, 3) into (3, 6, 9) in the caller's array,
and a second call on the same array double-applies the scaling, giving
(9, 18, 27).  (`np.rad2deg` is instantiated with the identity here; the
mutation is independent of it since the rotation columns are zero.) -/
theorem claim_C9_mutation_bug :
    rpFinalOf (plot_realignment_parameters (fun x => x) [[1, 2, 3, 0, 0, 0]] true true)
      = some [[3, 6, 9, 0, 0, 0]] ∧
    some [[3, 6, 9, 0, 0, 0]] ≠ some ([[1, 2, 3, 0, 0, 0]] : List Params) ∧
    rpFinalOf (plot_realignment_parameters (fun x => x) [[3, 6, 9, 0, 0, 0]] true true)
      = some [[9, 18, 27, 0, 0, 0]] :=
  ⟨by norm_num [rpFinalOf, plot_realignment_parameters, rpConvert],
   by norm_num,
   by norm_num [rpFinalOf, plot_realignment_parameters, rpConvert]⟩

/-- C5 fails on the code: with smoothing width 0 (the declared default)
the locals `img_smooth`/`data_smooth` are never bound (lines 67-70), so on
any nonempty series the first loop iteration raises a NameError while
assembling the optimizer call of line 109; the optimizer is never invoked
and the run never behaves as if the smoothed series equalled the original
series.  The collaborators used here succeed on every volume, so the
failure is the script's own. -/
theorem claim_C5_smooth_zero_bug :
    (volume_4D_realign wOptC wRes wSmooth ("f.nii") wImg1 0 0 ("r") 0).result
      = .error (.nameError ("data_smooth")) ∧
    (volume_4D_realign wOptC wRes wSmooth ("f.nii") wImg1 0 0 ("r") 0).optCalls = [] :=
  ⟨rfl, rfl⟩

/-- C6 fails as stated at a concrete input: for `reference = 2` (outside
{0, 1}) on a 2-volume series, `volume_4D_realign` raises no explicit
configuration error; reference selection falls through silently (the
source has no `else` branch) and the run dies with a NameError on the
unbound `ref_vol` when the first optimizer call is assembled.  Zero
optimizer calls occur, but not because of a configuration check. -/
theorem claim_C6_counterexample :
    raisedConfigError (volume_4D_realign wOptC wRes wSmooth ("f.nii") wImg2 2 1 ("r") 0)
      = false ∧
    (volume_4D_realign wOptC wRes wSmooth ("f.nii") wImg2 2 1 ("r") 0).result
      = .error (.nameError ("ref_vol")) ∧
    (volume_4D_realign wOptC wRes wSmooth ("f.nii") wImg2 2 1 ("r") 0).optCalls = [] :=
  ⟨rfl, rfl, rfl⟩

/-- C6 amended: for every reference value outside {0, 1} on a series with
at least one volume, `volume_4D_realign` raises no explicit configuration
error; instead reference selection falls through without binding
`ref_vol`, and the run fails with an unbound-variable NameError when the
first optimizer call is assembled, so zero optimizer calls occur. -/
theorem claim_C6_invalid_reference (opt : Optimizer) (res : Resampler)
    (sf : SmoothFn) (nm : String) (img : Img) (reference : Int) (fwhm : ℚ)
    (pfx : String) (d : Nat)
    (h0 : reference ≠ 0) (h1 : reference ≠ 1) (hn : 1 ≤ img.volsData.length) :
    raisedConfigError (volume_4D_realign opt res sf nm img reference fwhm pfx d) = false ∧
    (volume_4D_realign opt res sf nm img reference fwhm pfx d).result
      = .error (.nameError ("ref_vol")) ∧
    (volume_4D_realign opt res sf nm img reference fwhm pfx d).optCalls = [] := by
  have hsel : selectRef img reference = .ok none := by
    unfold selectRef
    rw [if_neg h0, if_neg h1]
  obtain ⟨n, hn'⟩ : ∃ n, img.volsData.length = n + 1 :=
    ⟨img.volsData.length - 1, by omega⟩
  have hloop : realignLoop opt res none (smoothedOf sf img fwhm) img
      (n + 1) 0 ⟨[], [], [], []⟩
      = (⟨[], [], [], []⟩, some (.nameError ("ref_vol"))) := by
    rw [realignLoop]
    rfl
  have hrun : volume_4D_realign opt res sf nm img reference fwhm pfx d
      = ⟨.error (.nameError ("ref_vol")), [], []⟩ := by
    simp only [volume_4D_realign, hsel]
    rw [hn', hloop]
  rw [hrun]
  exact ⟨rfl, rfl, rfl⟩

/-- C6 amended, witnessed at `reference = 2` on a 1-volume series. -/
theorem claim_C6_witness :
    ((2 : Int) ≠ 0) ∧ ((2 : Int) ≠ 1) ∧ 1 ≤ wImg1.volsData.length ∧
    (raisedConfigError (volume_4D_realign wOptC wRes wSmooth ("f.nii") wImg1 2 1 ("r") 0)
        = false ∧
     (volume_4D_realign wOptC wRes wSmooth ("f.nii") wImg1 2 1 ("r") 0).result
        = .error (.nameError ("ref_vol")) ∧
     (volume_4D_realign wOptC wRes wSmooth ("f.nii") wImg1 2 1 ("r") 0).optCalls = []) :=
  ⟨by decide, by decide, by decide,
   claim_C6_invalid_reference wOptC wRes wSmooth ("f.nii") wImg1 2 1 ("r") 0
     (by decide) (by decide) (by decide)⟩

/-- C1: in every completed `volume_4D_realign` run, the initial guess
passed to the optimizer for volume 0 is the zero 6-vector, and for every
volume `i > 0` the guess is the elementwise negation of the accepted
parameter vector of volume `i-1` (the row stored in `realign_params` at
`i-1`). -/
theorem claim_C1_warm_start (opt : Optimizer) (res : Resampler)
    (sf : SmoothFn) (nm : String) (img : Img) (reference : Int) (fwhm : ℚ)
    (pfx : String) (d : Nat) (out : RealignOk)
    (hok : (volume_4D_realign opt res sf nm img reference fwhm pfx d).result = .ok out)
    (i : Nat) (hi : i < img.volsData.length) :
    ∃ c, (volume_4D_realign opt res sf nm img reference fwhm pfx d).optCalls[i]?
        = some c ∧
      (i = 0 → c.guess = zeros6) ∧
      (0 < i → ∃ prev, out.realign_params[i - 1]? = some prev ∧
        c.guess = negP prev) := by
  obtain ⟨-, -, -, -, -, -, -, htr⟩ := volume_4D_realign_ok_facts hok
  obtain ⟨rv, ism, -, -, hfacts⟩ := htr (by omega)
  obtain ⟨mv, best, ov, rvol, -, -, hoc, -, -, -, -, -, -, -⟩ := hfacts i hi
  refine ⟨⟨rv, mv, ism.affine, guessFor out.realign_params i⟩, hoc, ?_, ?_⟩
  · intro h0
    subst h0
    simp [guessFor]
  · intro hpos
    obtain ⟨mv', best', ov', rvol', -, -, -, -, hps, -, -, -, -, -⟩ :=
      hfacts (i - 1) (by omega)
    refine ⟨best', hps, ?_⟩
    show guessFor out.realign_params i = negP best'
    rw [guessFor, if_pos hpos]
    have hp : out.realign_params[i - 1]? = some best' := hps
    rw [hp]
    rfl

/-- C1, witnessed on a completed 2-volume run at volume index 1. -/
theorem claim_C1_witness :
    ((volume_4D_realign wOptC wRes wSmooth ("f.nii") wImg2 0 1 ("r") 0).result
        = .ok wOutC2) ∧ 1 < wImg2.volsData.length ∧
    (∃ c, (volume_4D_realign wOptC wRes wSmooth ("f.nii") wImg2 0 1 ("r") 0).optCalls[1]?
        = some c ∧
      ((1 : Nat) = 0 → c.guess = zeros6) ∧
      (0 < (1 : Nat) → ∃ prev, wOutC2.realign_params[(1 : Nat) - 1]? = some prev ∧
        c.guess = negP prev)) :=
  ⟨rfl, by decide,
   claim_C1_warm_start wOptC wRes wSmooth ("f.nii") wImg2 0 1 ("r") 0 wOutC2 rfl 1
     (by decide)⟩

/-- C2: in every completed run, the optimizer call for volume `i` is made
on the smoothed copy of volume `i` (with the smoothed image's affine), and
the resampler call for volume `i` receives the optimizer's best-fit result
as parameters together with the ORIGINAL, unsmoothed volume `i` and the
original affine; row `i` of the trajectory is the optimizer's output (from
smoothed data) and slot `i` of the realigned data is the resampler's
output (from original data). -/
theorem claim_C2_estimate_smoothed_resample_original (opt : Optimizer)
    (res : Resampler) (sf : SmoothFn) (nm : String) (img : Img)
    (reference : Int) (fwhm : ℚ) (pfx : String) (d : Nat) (out : RealignOk)
    (hok : (volume_4D_realign opt res sf nm img reference fwhm pfx d).result = .ok out)
    (i : Nat) (hi : i < img.volsData.length) :
    0 < fwhm ∧
    ∃ c rc p v,
      (volume_4D_realign opt res sf nm img reference fwhm pfx d).optCalls[i]? = some c ∧
      (sf img fwhm).vol i = some c.moving ∧
      c.affine = (sf img fwhm).affine ∧
      opt c.ref c.moving c.affine c.guess = some p ∧
      out.realign_params[i]? = some p ∧
      (volume_4D_realign opt res sf nm img reference fwhm pfx d).resampleCalls[i]?
        = some rc ∧
      rc.params = p ∧
      img.vol i = some rc.moving ∧
      rc.affine = img.affine ∧
      res rc.params rc.ref rc.moving rc.affine = some v ∧
      out.realigned_data[i]? = some v := by
  obtain ⟨-, -, -, -, -, -, -, htr⟩ := volume_4D_realign_ok_facts hok
  obtain ⟨rv, ism, -, hsm, hfacts⟩ := htr (by omega)
  have hf : 0 < fwhm ∧ sf img fwhm = ism := by
    unfold smoothedOf at hsm
    by_cases hf0 : 0 < fwhm
    · rw [if_pos hf0] at hsm
      injection hsm with hsm
      exact ⟨hf0, hsm⟩
    · rw [if_neg hf0] at hsm
      cases hsm
  obtain ⟨hf0, hsf⟩ := hf
  obtain ⟨mv, best, ov, rvol, hmv, hov, hoc, hopt2, hps, -, hrc, hres2, hrd, -⟩ :=
    hfacts i hi
  refine ⟨hf0, ⟨rv, mv, ism.affine, guessFor out.realign_params i⟩,
    ⟨best, rv, ov, img.affine⟩, best, rvol, hoc, ?_, ?_, hopt2, hps, hrc, rfl, hov,
    rfl, hres2, hrd⟩
  · rw [hsf]
    exact hmv
  · rw [hsf]

/-- C2, witnessed on a completed 1-volume run at volume index 0. -/
theorem claim_C2_witness :
    ((volume_4D_realign wOptC wRes wSmooth ("f.nii") wImg1 0 1 ("r") 0).result
        = .ok wOutC1) ∧ 0 < wImg1.volsData.length ∧
    ((0 : ℚ) < 1 ∧
     ∃ c rc p v,
       (volume_4D_realign wOptC wRes wSmooth ("f.nii") wImg1 0 1 ("r") 0).optCalls[0]?
         = some c ∧
       (wSmooth wImg1 1).vol 0 = some c.moving ∧
       c.affine = (wSmooth wImg1 1).affine ∧
       wOptC c.ref c.moving c.affine c.guess = some p ∧
       wOutC1.realign_params[(0 : Nat)]? = some p ∧
       (volume_4D_realign wOptC wRes wSmooth ("f.nii") wImg1 0 1 ("r") 0).resampleCalls[0]?
         = some rc ∧
       rc.params = p ∧
       wImg1.vol 0 = some rc.moving ∧
       rc.affine = wImg1.affine ∧
       wRes rc.params rc.ref rc.moving rc.affine = some v ∧
       wOutC1.realigned_data[(0 : Nat)]? = some v) :=
  ⟨rfl, by decide,
   claim_C2_estimate_smoothed_resample_original wOptC wRes wSmooth ("f.nii") wImg1 0 1
     ("r") 0 wOutC1 rfl 0 (by decide)⟩

/-- C4: the image container a completed run returns as `realigned_img`
(and hands to `nib.save`) is built from the original, unmodified intensity
data of the input image together with its affine; it is not built from the
computed resampled volumes, which exist only in the intermediate
`realigned_data` array. -/
theorem claim_C4_persists_original (opt : Optimizer) (res : Resampler)
    (sf : SmoothFn) (nm : String) (img : Img) (reference : Int) (fwhm : ℚ)
    (pfx : String) (d : Nat) (out : RealignOk)
    (hok : (volume_4D_realign opt res sf nm img reference fwhm pfx d).result = .ok out) :
    out.realigned_img.volsData = img.volsData ∧
    out.realigned_img.shape3 = img.shape3 ∧
    out.realigned_img.affine = img.affine ∧
    out.savedImg = out.realigned_img := by
  obtain ⟨h1, h2, -, -, -, -, -, -⟩ := volume_4D_realign_ok_facts hok
  refine ⟨?_, ?_, ?_, h2.trans h1.symm⟩ <;> rw [h1]

/-- C4, witnessed on a completed 5-volume MIDDLE-mode run. -/
theorem claim_C4_witness :
    ((volume_4D_realign wOptC wRes wSmooth ("f.nii") wImg5 1 1 ("r") 0).result
        = .ok wOutC5) ∧
    (wOutC5.realigned_img.volsData = wImg5.volsData ∧
     wOutC5.realigned_img.shape3 = wImg5.shape3 ∧
     wOutC5.realigned_img.affine = wImg5.affine ∧
     wOutC5.savedImg = wOutC5.realigned_img) :=
  ⟨rfl,
   claim_C4_persists_original wOptC wRes wSmooth ("f.nii") wImg5 1 1 ("r") 0 wOutC5 rfl⟩

/-- C7: with reference mode MIDDLE (`reference = 1`), every optimizer call
of a completed run takes as its reference volume the volume at index
`floor(N/2)` — `int(n_vols/2)`, truncating integer division of the volume
count — and there are exactly `N` such calls (so for odd `N`, e.g. `N = 5`
in the witness, the selected index is `N / 2`, i.e. 2). -/
theorem claim_C7_middle_reference (opt : Optimizer) (res : Resampler)
    (sf : SmoothFn) (nm : String) (img : Img) (fwhm : ℚ) (pfx : String)
    (d : Nat) (out : RealignOk)
    (hok : (volume_4D_realign opt res sf nm img 1 fwhm pfx d).result = .ok out) :
    (volume_4D_realign opt res sf nm img 1 fwhm pfx d).optCalls.length
      = img.volsData.length ∧
    ∀ c ∈ (volume_4D_realign opt res sf nm img 1 fwhm pfx d).optCalls,
      img.vol (img.volsData.length / 2) = some c.ref := by
  obtain ⟨-, -, -, -, -, hlen, -, htr⟩ := volume_4D_realign_ok_facts hok
  refine ⟨hlen, ?_⟩
  intro c hc
  obtain ⟨j, hj⟩ := List.mem_iff_getElem?.mp hc
  have hjlt : j < img.volsData.length := by
    obtain ⟨hlt, -⟩ := List.getElem?_eq_some_iff.mp hj
    rw [← hlen]
    exact hlt
  obtain ⟨rv, ism, hsel, -, hfacts⟩ := htr (by omega)
  obtain ⟨mv, best, ov, rvol, -, -, hocj, -, -, -, -, -, -, -⟩ := hfacts j hjlt
  have hcj : some c = some (⟨rv, mv, ism.affine,
      guessFor out.realign_params j⟩ : OptCall) := by
    rw [← hj]
    exact hocj
  injection hcj with hcj
  rw [hcj]
  exact (selectRef_one hsel).symm

/-- C7, witnessed on a completed 5-volume MIDDLE-mode run: the selected
reference index is `int(5/2) = 2`. -/
theorem claim_C7_witness :
    ((volume_4D_realign wOptC wRes wSmooth ("f.nii") wImg5 1 1 ("r") 0).result
        = .ok wOutC5) ∧
    ((volume_4D_realign wOptC wRes wSmooth ("f.nii") wImg5 1 1 ("r") 0).optCalls.length
        = wImg5.volsData.length ∧
     ∀ c ∈ (volume_4D_realign wOptC wRes wSmooth ("f.nii") wImg5 1 1 ("r") 0).optCalls,
       wImg5.vol (wImg5.volsData.length / 2) = some c.ref) :=
  ⟨rfl,
   claim_C7_middle_reference wOptC wRes wSmooth ("f.nii") wImg5 1 ("r") 0 wOutC5 rfl⟩

/-- C3 fails as stated: with collaborators that succeed on every volume
(constant 6-parameter optimizer, shape-preserving resampler) but smoothing
width 0, the run on a 2-volume series raises the `data_smooth` NameError
instead of producing a trajectory, so the claimed output does not exist
"regardless of the smoothing width". -/
theorem claim_C3_counterexample :
    (volume_4D_realign wOptC wRes wSmooth ("f.nii") wImg2 0 0 ("r") 0).result
      = .error (.nameError ("data_smooth")) := rfl

/-- C3 amended: for every series with `N ≥ 1` volumes, every POSITIVE
smoothing width, a valid reference mode, a smoothing collaborator that
preserves the volume count, and optimizer/resampler collaborators that
succeed on every volume (returning a 6-vector resp. a volume of the
moving volume's shape), `volume_4D_realign` completes and produces a
parameter trajectory with exactly `N` rows of 6 values and a realigned
data array of exactly `N` volumes, each of the common input volume
shape. -/
theorem claim_C3_shapes (opt : Optimizer) (res : Resampler) (sf : SmoothFn)
    (nm : String) (img : Img) (reference : Int) (fwhm : ℚ) (pfx : String)
    (d : Nat)
    (href : reference = 0 ∨ reference = 1)
    (hn : 1 ≤ img.volsData.length)
    (hf : 0 < fwhm)
    (hsf : (sf img fwhm).volsData.length = img.volsData.length)
    (hopt : ∀ rv mv a g, ∃ bp, opt rv mv a g = some bp ∧ bp.length = 6)
    (hres : ∀ bp rv mv a, ∃ v, res bp rv mv a = some v ∧ v.shape = mv.shape) :
    ∃ out, (volume_4D_realign opt res sf nm img reference fwhm pfx d).result
        = .ok out ∧
      out.realign_params.length = img.volsData.length ∧
      (∀ q ∈ out.realign_params, q.length = 6) ∧
      out.realigned_data.length = img.volsData.length ∧
      (∀ v ∈ out.realigned_data, v.shape = img.shape3) := by
  have hsm : smoothedOf sf img fwhm = some (sf img fwhm) := by
    unfold smoothedOf
    rw [if_pos hf]
  have hsel : ∃ rv, selectRef img reference = .ok (some rv) := by
    rcases href with rfl | rfl
    · refine ⟨⟨img.shape3, img.volsData.get ⟨0, by omega⟩⟩, ?_⟩
      rw [selectRef, if_pos rfl, Img.vol_eq_some (by omega)]
    · have hmid : img.volsData.length / 2 < img.volsData.length :=
        Nat.div_lt_self (by omega) (by omega)
      refine ⟨⟨img.shape3, img.volsData.get ⟨img.volsData.length / 2, hmid⟩⟩, ?_⟩
      rw [selectRef, if_neg (by decide), if_pos rfl, Img.vol_eq_some hmid]
  obtain ⟨rv, hselrv⟩ := hsel
  have hstep : ∀ i acc, i < img.volsData.length →
      (acc.ps.length = i ∧ acc.rdata.length = i ∧
        (∀ q ∈ acc.ps, q.length = 6) ∧ (∀ v ∈ acc.rdata, v.shape = img.shape3)) →
      ∃ acc', realignStep opt res (some rv) (some (sf img fwhm)) img i acc
          = .ok acc' ∧
        (acc'.ps.length = i + 1 ∧ acc'.rdata.length = i + 1 ∧
          (∀ q ∈ acc'.ps, q.length = 6) ∧
          (∀ v ∈ acc'.rdata, v.shape = img.shape3)) := by
    intro i acc hi hP
    obtain ⟨hp1, hp2, hp3, hp4⟩ := hP
    have hmv : (sf img fwhm).vol i = some ⟨(sf img fwhm).shape3,
        (sf img fwhm).volsData.get ⟨i, by omega⟩⟩ := Img.vol_eq_some (by omega)
    obtain ⟨bp, hbp, hbp6⟩ := hopt rv ⟨(sf img fwhm).shape3,
      (sf img fwhm).volsData.get ⟨i, by omega⟩⟩ (sf img fwhm).affine
      (guessFor acc.ps i)
    have hov : img.vol i = some ⟨img.shape3, img.volsData.get ⟨i, by omega⟩⟩ :=
      Img.vol_eq_some (by omega)
    obtain ⟨v, hv, hvs⟩ := hres bp rv
      ⟨img.shape3, img.volsData.get ⟨i, by omega⟩⟩ img.affine
    refine ⟨_, realignStep_ok_intro hmv hbp hov hv hbp6 hvs, ?_, ?_, ?_, ?_⟩
    · simp [hp1]
    · simp [hp2]
    · intro q hq
      rcases List.mem_append.mp hq with h | h
      · exact hp3 q h
      · rw [List.mem_singleton.mp h]
        exact hbp6
    · intro v' hv'
      rcases List.mem_append.mp hv' with h | h
      · exact hp4 v' h
      · rw [List.mem_singleton.mp h]
        exact hvs
  obtain ⟨acc, hloop, hlen1, hlen2, hmem1, hmem2⟩ :=
    realignLoop_total opt res (some rv) (some (sf img fwhm)) img
      img.volsData.length
      (fun i acc => acc.ps.length = i ∧ acc.rdata.length = i ∧
        (∀ q ∈ acc.ps, q.length = 6) ∧ (∀ v ∈ acc.rdata, v.shape = img.shape3))
      hstep img.volsData.length 0 ⟨[], [], [], []⟩ (by omega)
      ⟨rfl, rfl, by simp, by simp⟩
  refine ⟨⟨⟨img.shape3, img.volsData, img.affine⟩, acc.ps, acc.rdata,
           ⟨img.shape3, img.volsData, img.affine⟩, pfx ++ "_map_coords_" ++ nm⟩,
    ?_, ?_, hmem1, ?_, hmem2⟩
  · simp only [volume_4D_realign, hselrv, hsm]
    rw [hloop]
  · simpa using hlen1
  · simpa using hlen2

/-- C3 amended, witnessed on a 2-volume series with width-1 smoothing and
always-succeeding collaborators. -/
theorem claim_C3_witness :
    ((0 : Int) = 0 ∨ (0 : Int) = 1) ∧ 1 ≤ wImg2.volsData.length ∧ (0 : ℚ) < 1 ∧
    (wSmooth wImg2 1).volsData.length = wImg2.volsData.length ∧
    (∃ out, (volume_4D_realign wOptC wRes wSmooth ("f.nii") wImg2 0 1 ("r") 0).result
        = .ok out ∧
      out.realign_params.length = wImg2.volsData.length ∧
      (∀ q ∈ out.realign_params, q.length = 6) ∧
      out.realigned_data.length = wImg2.volsData.length ∧
      (∀ v ∈ out.realigned_data, v.shape = wImg2.shape3)) :=
  ⟨Or.inl rfl, by decide, by decide, rfl,
   claim_C3_shapes wOptC wRes wSmooth ("f.nii") wImg2 0 1 ("r") 0 (Or.inl rfl)
     (by decide) (by decide) rfl
     (fun rv mv a g => ⟨[1, 0, 0, 0, 0, 0], rfl, rfl⟩)
     (fun bp rv mv a => ⟨mv, rfl, rfl⟩)⟩

end VolumeRealign
